import Mathlib

/-!
Verification of the spinning-wheel ball simulation (spin_wheel.py).

The simulation state and its per-frame integrator and contact resolver are
embedded over the real numbers.  Every definition transcribes the
corresponding Python code line by line; the two random draws of the program
(`random.random() * tau` in `place_ball_near_rim` and
`random.uniform(spin_impulse_min, spin_impulse_max)` in `randomize_spin`)
become explicit parameters of the embedded operations, so the embedded
`update` is a deterministic pure function, mirroring the fact that the
Python `update` performs no random call.
-/

namespace SpinWheel

/-- Numeric configuration constants of the `Config` class (color tables and
render-only tuples are omitted; they are never read by the simulation core). -/
structure Config where
  window_size_px : ℝ
  pixels_per_meter : ℝ
  gravity_m_s2 : ℝ
  air_drag_per_second : ℝ
  wall_restitution : ℝ
  mu_static : ℝ
  mu_kinetic : ℝ
  inward_radial_accel_m_s2 : ℝ
  wheel_angular_friction_per_second : ℝ
  ball_angular_friction_per_second : ℝ
  ball_spin_gain : ℝ
  rim_thickness_px : ℝ
  ball_radius_px : ℝ
  spoke_count : ℕ
  spin_impulse_min : ℝ
  spin_impulse_max : ℝ
  ball_boost_speed_m_s : ℝ

noncomputable section

/-- The concrete constants of the `Config` class in spin_wheel.py. -/
def defaultConfig : Config where
  window_size_px := 820
  pixels_per_meter := 200
  gravity_m_s2 := 5
  air_drag_per_second := 1/10
  wall_restitution := 1/4
  mu_static := 9/20
  mu_kinetic := 7/20
  inward_radial_accel_m_s2 := 9/5
  wheel_angular_friction_per_second := 1/4
  ball_angular_friction_per_second := 2
  ball_spin_gain := 6
  rim_thickness_px := 24
  ball_radius_px := 10
  spoke_count := 36
  spin_impulse_min := 3/5
  spin_impulse_max := 6/5
  ball_boost_speed_m_s := 11/5

/-- The `Ball` class: position and velocity in pixel space. -/
@[ext]
structure Ball where
  x : ℝ
  y : ℝ
  vx : ℝ
  vy : ℝ

/-- The mutable fields of `SpinningWheelSimulation` (plus the held config). -/
@[ext]
structure State where
  cfg : Config
  width : ℝ
  height : ℝ
  center_x : ℝ
  center_y : ℝ
  wheel_radius_px : ℝ
  wheel_angle : ℝ
  wheel_omega : ℝ
  ball : Ball
  ball_angle : ℝ
  ball_omega : ℝ

/-- Euclidean length of a 2-vector, as computed by math.hypot. -/
def hypot (x y : ℝ) : ℝ := Real.sqrt (x * x + y * y)

/-- The guarded contact distance of line 118,
dist = math.hypot(dx, dy) or 1e-6: Python `or` returns the right operand
exactly when the left one is 0.0. -/
def distGuard (h : ℝ) : ℝ := if h = 0 then 1/1000000 else h

/-- math.copysign x y: the magnitude of x with the sign of y (for y = 0 the
real-number model takes the positive sign, the sign of +0.0). -/
def copysign (x y : ℝ) : ℝ := if y < 0 then -|x| else |x|

/-- Lines 143-151: the tangential friction impulse.  A pure function of the
slip speed, the normal-force estimate and the time step: the regime
(sticking versus sliding) is recomputed from these every step, with no
persistent mode variable. -/
def frictionImpulse (cfg : Config) (slip N dt : ℝ) : ℝ :=
  let JmaxStatic := cfg.mu_static * N * dt
  let JmaxKinetic := cfg.mu_kinetic * N * dt
  let Jstatic := -slip / 3
  if |Jstatic| ≤ JmaxStatic then Jstatic else -copysign JmaxKinetic slip

/-- Lines 133-135: normal-velocity response at the rim. -/
def bounce (cfg : Config) (vn : ℝ) : ℝ :=
  if 0 < vn then -vn * cfg.wall_restitution else vn

/-- Line 97: gravity acceleration in pixel units. -/
def gPix (cfg : Config) : ℝ := cfg.gravity_m_s2 * cfg.pixels_per_meter

/-- Line 100: air-drag decay factor. -/
def airK (cfg : Config) (dt : ℝ) : ℝ := max 0 (1 - cfg.air_drag_per_second * dt)

/-- Lines 98-101: x-velocity after the gravity and drag stages. -/
def vx2 (s : State) (dt : ℝ) : ℝ := s.ball.vx * airK s.cfg dt

/-- Lines 98-102: y-velocity after the gravity and drag stages. -/
def vy2 (s : State) (dt : ℝ) : ℝ := (s.ball.vy + gPix s.cfg * dt) * airK s.cfg dt

/-- Line 104: x-position after integration. -/
def x1 (s : State) (dt : ℝ) : ℝ := s.ball.x + vx2 s dt * dt

/-- Line 105: y-position after integration. -/
def y1 (s : State) (dt : ℝ) : ℝ := s.ball.y + vy2 s dt * dt

/-- Line 107: wheel angular-friction decay factor. -/
def omegaK (cfg : Config) (dt : ℝ) : ℝ :=
  max 0 (1 - cfg.wheel_angular_friction_per_second * dt)

/-- Line 108: wheel angular velocity after decay. -/
def wheelOmega1 (s : State) (dt : ℝ) : ℝ := s.wheel_omega * omegaK s.cfg dt

/-- Line 109: wheel angle after integration. -/
def wheelAngle1 (s : State) (dt : ℝ) : ℝ := s.wheel_angle + wheelOmega1 s dt * dt

/-- Line 112: ball rotational damping factor. -/
def spinK (cfg : Config) (dt : ℝ) : ℝ :=
  max 0 (1 - cfg.ball_angular_friction_per_second * dt)

/-- Line 113: ball spin velocity after damping. -/
def ballOmega1 (s : State) (dt : ℝ) : ℝ := s.ball_omega * spinK s.cfg dt

/-- Line 116: x-offset of the integrated ball position from the wheel center. -/
def dxOf (s : State) (dt : ℝ) : ℝ := x1 s dt - s.center_x

/-- Line 117: y-offset of the integrated ball position from the wheel center. -/
def dyOf (s : State) (dt : ℝ) : ℝ := y1 s dt - s.center_y

/-- Line 118: the guarded distance used to form the unit normal. -/
def distOf (s : State) (dt : ℝ) : ℝ := distGuard (hypot (dxOf s dt) (dyOf s dt))

/-- Line 119: x-component of the unit normal. -/
def nxOf (s : State) (dt : ℝ) : ℝ := dxOf s dt / distOf s dt

/-- Line 120: y-component of the unit normal. -/
def nyOf (s : State) (dt : ℝ) : ℝ := dyOf s dt / distOf s dt

/-- Line 121: the allowed radial travel of the ball center. -/
def allowedOf (s : State) : ℝ := s.wheel_radius_px - s.cfg.ball_radius_px

/-- Line 123: the contact-branch condition dist > allowed. -/
def contact (s : State) (dt : ℝ) : Prop := allowedOf s < distOf s dt

/-- Line 124: penetration depth. -/
def penOf (s : State) (dt : ℝ) : ℝ := distOf s dt - allowedOf s

/-- Line 128: normal velocity component. -/
def vNormalOf (s : State) (dt : ℝ) : ℝ :=
  vx2 s dt * nxOf s dt + vy2 s dt * nyOf s dt

/-- Line 131: tangential velocity component (tangent basis t = (-ny, nx)). -/
def vTangentialOf (s : State) (dt : ℝ) : ℝ :=
  vx2 s dt * (-nyOf s dt) + vy2 s dt * nxOf s dt

/-- Lines 133-135: normal velocity after the bounce response. -/
def vNOf (s : State) (dt : ℝ) : ℝ := bounce s.cfg (vNormalOf s dt)

/-- Line 137: rim surface speed at the contact radius. -/
def surfaceSpeedOf (s : State) (dt : ℝ) : ℝ := wheelOmega1 s dt * allowedOf s

/-- Line 139: slip speed including ball spin. -/
def slipOf (s : State) (dt : ℝ) : ℝ :=
  vTangentialOf s dt - surfaceSpeedOf s dt - ballOmega1 s dt * allowedOf s

/-- Line 142: normal-force magnitude estimate (unit mass). -/
def NOf (s : State) (dt : ℝ) : ℝ :=
  max 0 (vTangentialOf s dt * vTangentialOf s dt / max 1 (allowedOf s) +
    max 0 (gPix s.cfg * nyOf s dt))

/-- Lines 143-151: the applied tangential impulse. -/
def JtOf (s : State) (dt : ℝ) : ℝ :=
  frictionImpulse s.cfg (slipOf s dt) (NOf s dt) dt

/-- Line 153: tangential velocity after the friction impulse. -/
def vTOf (s : State) (dt : ℝ) : ℝ := vTangentialOf s dt + JtOf s dt

/-- Line 158: inward radial bias acceleration in pixel units. -/
def inwardOf (cfg : Config) : ℝ := cfg.inward_radial_accel_m_s2 * cfg.pixels_per_meter

/-- Lines 155-159: x-velocity leaving the contact branch. -/
def vx4 (s : State) (dt : ℝ) : ℝ :=
  vNOf s dt * nxOf s dt + vTOf s dt * (-nyOf s dt) - nxOf s dt * inwardOf s.cfg * dt

/-- Lines 156-160: y-velocity leaving the contact branch. -/
def vy4 (s : State) (dt : ℝ) : ℝ :=
  vNOf s dt * nyOf s dt + vTOf s dt * nxOf s dt - nyOf s dt * inwardOf s.cfg * dt

/-- Lines 162-164: ball spin velocity after the rotational feedback. -/
def ballOmega2 (s : State) (dt : ℝ) : ℝ :=
  ballOmega1 s dt + -(2 * JtOf s dt) / max 1 s.cfg.ball_radius_px

/-- Lines 96-167: SpinningWheelSimulation.update, the per-frame integrator
and contact resolver. -/
def update (s : State) (dt : ℝ) : State :=
  if allowedOf s < distOf s dt then
    { s with
      ball := ⟨x1 s dt - nxOf s dt * penOf s dt, y1 s dt - nyOf s dt * penOf s dt,
               vx4 s dt, vy4 s dt⟩
      wheel_omega := wheelOmega1 s dt
      wheel_angle := wheelAngle1 s dt
      ball_omega := ballOmega2 s dt
      ball_angle := s.ball_angle + ballOmega2 s dt * dt }
  else
    { s with
      ball := ⟨x1 s dt, y1 s dt, vx2 s dt, vy2 s dt⟩
      wheel_omega := wheelOmega1 s dt
      wheel_angle := wheelAngle1 s dt
      ball_omega := ballOmega1 s dt
      ball_angle := s.ball_angle + ballOmega1 s dt * dt }

/-- Lines 76-88: place_ball_near_rim; the random draw
random.random() * math.tau is the explicit angle parameter. -/
def place_ball_near_rim (s : State) (angle : ℝ) : State :=
  let r := s.wheel_radius_px - s.cfg.ball_radius_px - 1
  let ux := Real.cos angle
  let uy := Real.sin angle
  let boost := s.cfg.ball_boost_speed_m_s * s.cfg.pixels_per_meter
  { s with ball := ⟨s.center_x + ux * r, s.center_y + uy * r, -uy * boost, ux * boost⟩ }

/-- Lines 90-94: randomize_spin; the random draw
random.uniform(spin_impulse_min, spin_impulse_max) is the explicit
parameter u. -/
def randomize_spin (s : State) (u : ℝ) : State :=
  { s with wheel_omega := s.wheel_omega + u }

/-- Distance from the ball center to the wheel center. -/
def distTo (s : State) : ℝ := hypot (s.ball.x - s.center_x) (s.ball.y - s.center_y)

/-- A concrete state of the simulation as built by the constructor for an
820x820 window (wheel radius max(40, 0.45*820 - 24) = 345), with the ball
resting at the center. -/
def exampleState : State where
  cfg := defaultConfig
  width := 820
  height := 820
  center_x := 410
  center_y := 410
  wheel_radius_px := 345
  wheel_angle := 0
  wheel_omega := 2/5
  ball := ⟨410, 410, 0, 0⟩
  ball_angle := 0
  ball_omega := 0

end

lemma hypot_nonneg (x y : ℝ) : 0 ≤ hypot x y := Real.sqrt_nonneg _

lemma hypot_eq_zero_iff {x y : ℝ} : hypot x y = 0 ↔ x = 0 ∧ y = 0 := by
  unfold hypot
  rw [Real.sqrt_eq_zero']
  constructor
  · intro h
    have hx : x * x = 0 :=
      le_antisymm (by nlinarith [mul_self_nonneg y]) (mul_self_nonneg x)
    have hy : y * y = 0 :=
      le_antisymm (by nlinarith [mul_self_nonneg x]) (mul_self_nonneg y)
    exact ⟨mul_self_eq_zero.mp hx, mul_self_eq_zero.mp hy⟩
  · rintro ⟨rfl, rfl⟩
    norm_num

lemma hypot_mul (a x y : ℝ) : hypot (a * x) (a * y) = |a| * hypot x y := by
  unfold hypot
  rw [show a * x * (a * x) + a * y * (a * y) = (a * a) * (x * x + y * y) by ring,
    Real.sqrt_mul (mul_self_nonneg a), Real.sqrt_mul_self_eq_abs]

lemma distGuard_pos {h : ℝ} (hh : 0 ≤ h) : 0 < distGuard h := by
  unfold distGuard
  split_ifs with h0
  · norm_num
  · exact lt_of_le_of_ne hh (Ne.symm h0)

lemma distOf_pos (s : State) (dt : ℝ) : 0 < distOf s dt :=
  distGuard_pos (hypot_nonneg _ _)

lemma update_cfg (s : State) (dt : ℝ) : (update s dt).cfg = s.cfg := by
  unfold update; split <;> rfl

lemma update_width (s : State) (dt : ℝ) : (update s dt).width = s.width := by
  unfold update; split <;> rfl

lemma update_height (s : State) (dt : ℝ) : (update s dt).height = s.height := by
  unfold update; split <;> rfl

lemma update_center_x (s : State) (dt : ℝ) : (update s dt).center_x = s.center_x := by
  unfold update; split <;> rfl

lemma update_center_y (s : State) (dt : ℝ) : (update s dt).center_y = s.center_y := by
  unfold update; split <;> rfl

lemma update_wheel_radius_px (s : State) (dt : ℝ) :
    (update s dt).wheel_radius_px = s.wheel_radius_px := by
  unfold update; split <;> rfl

lemma update_allowedOf (s : State) (dt : ℝ) : allowedOf (update s dt) = allowedOf s := by
  unfold allowedOf
  rw [update_wheel_radius_px, update_cfg]

lemma update_wheel_omega (s : State) (dt : ℝ) :
    (update s dt).wheel_omega = wheelOmega1 s dt := by
  unfold update; split <;> rfl

/-- Claim C10: update(dt) modifies only the dynamic state; the geometry
fields (width, height, center, wheel radius) and the configuration are left
unchanged (and the embedded update is a pure function of the state and dt:
it takes no random input). -/
theorem C10_update_frame (s : State) (dt : ℝ) :
    (update s dt).width = s.width ∧ (update s dt).height = s.height ∧
    (update s dt).center_x = s.center_x ∧ (update s dt).center_y = s.center_y ∧
    (update s dt).wheel_radius_px = s.wheel_radius_px ∧ (update s dt).cfg = s.cfg :=
  ⟨update_width s dt, update_height s dt, update_center_x s dt,
    update_center_y s dt, update_wheel_radius_px s dt, update_cfg s dt⟩

/-- Claim C8: for dt >= 0, update multiplies the wheel angular velocity by
the floored decay factor max(0, 1 - wheelAngularFriction*dt); its magnitude
never increases and its sign never flips. -/
theorem C8_wheel_angular_decay (s : State) (dt : ℝ) (hdt : 0 ≤ dt)
    (hc : 0 ≤ s.cfg.wheel_angular_friction_per_second) :
    (update s dt).wheel_omega =
      s.wheel_omega * max 0 (1 - s.cfg.wheel_angular_friction_per_second * dt) ∧
    |(update s dt).wheel_omega| ≤ |s.wheel_omega| ∧
    0 ≤ s.wheel_omega * (update s dt).wheel_omega := by
  have h1 : (update s dt).wheel_omega = s.wheel_omega * omegaK s.cfg dt :=
    update_wheel_omega s dt
  have hk0 : (0:ℝ) ≤ omegaK s.cfg dt := le_max_left 0 _
  have hk1 : omegaK s.cfg dt ≤ 1 := by
    unfold omegaK
    apply max_le (by norm_num)
    nlinarith [mul_nonneg hc hdt]
  refine ⟨h1, ?_, ?_⟩
  · rw [h1, abs_mul, abs_of_nonneg hk0]
    exact mul_le_of_le_one_right (abs_nonneg _) hk1
  · rw [h1, show s.wheel_omega * (s.wheel_omega * omegaK s.cfg dt) =
      (s.wheel_omega * s.wheel_omega) * omegaK s.cfg dt by ring]
    exact mul_nonneg (mul_self_nonneg _) hk0

/-- Witness for C8 at a concrete state and dt = 1/100. -/
theorem C8_wheel_angular_decay_witness :
    (0:ℝ) ≤ 1/100 ∧ (0:ℝ) ≤ exampleState.cfg.wheel_angular_friction_per_second ∧
    |(update exampleState (1/100)).wheel_omega| ≤ |exampleState.wheel_omega| := by
  refine ⟨by norm_num, by norm_num [exampleState, defaultConfig], ?_⟩
  exact (C8_wheel_angular_decay exampleState (1/100) (by norm_num)
    (by norm_num [exampleState, defaultConfig])).2.1

/-- Claim C7: randomize_spin adds its (uniformly drawn) argument to the
wheel angular velocity; with draws in [spinImpulseMin, spinImpulseMax] and
spinImpulseMin > 0, each of two consecutive calls strictly increases the
angular velocity by an amount within the range, never resetting motion. -/
theorem C7_spin_impulse_additive (s : State) (u1 u2 : ℝ)
    (h1a : s.cfg.spin_impulse_min ≤ u1) (h1b : u1 ≤ s.cfg.spin_impulse_max)
    (h2a : s.cfg.spin_impulse_min ≤ u2) (h2b : u2 ≤ s.cfg.spin_impulse_max)
    (hpos : 0 < s.cfg.spin_impulse_min) :
    s.wheel_omega < (randomize_spin s u1).wheel_omega ∧
    (randomize_spin s u1).wheel_omega <
      (randomize_spin (randomize_spin s u1) u2).wheel_omega ∧
    s.cfg.spin_impulse_min ≤ (randomize_spin s u1).wheel_omega - s.wheel_omega ∧
    (randomize_spin s u1).wheel_omega - s.wheel_omega ≤ s.cfg.spin_impulse_max ∧
    s.cfg.spin_impulse_min ≤ (randomize_spin (randomize_spin s u1) u2).wheel_omega -
      (randomize_spin s u1).wheel_omega ∧
    (randomize_spin (randomize_spin s u1) u2).wheel_omega -
      (randomize_spin s u1).wheel_omega ≤ s.cfg.spin_impulse_max := by
  refine ⟨?_, ?_, ?_, ?_, ?_, ?_⟩ <;> simp only [randomize_spin] <;> linarith

/-- Witness for C7 with both draws equal to 1. -/
theorem C7_spin_impulse_additive_witness :
    0 < exampleState.cfg.spin_impulse_min ∧
    exampleState.wheel_omega < (randomize_spin exampleState 1).wheel_omega ∧
    (randomize_spin exampleState 1).wheel_omega <
      (randomize_spin (randomize_spin exampleState 1) 1).wheel_omega := by
  have h := C7_spin_impulse_additive exampleState 1 1
    (by norm_num [exampleState, defaultConfig]) (by norm_num [exampleState, defaultConfig])
    (by norm_num [exampleState, defaultConfig]) (by norm_num [exampleState, defaultConfig])
    (by norm_num [exampleState, defaultConfig])
  exact ⟨by norm_num [exampleState, defaultConfig], h.1, h.2.1⟩

/-- Claim C2: with N >= 0 (as the code guarantees by its outer max) and
dt >= 0 and nonnegative friction coefficients, the resolver applies the
slip-zeroing candidate J_static = -slip/3 exactly when its magnitude is at
most muStatic*N*dt, and otherwise applies -sign(slip)*muKinetic*N*dt; the
impulse is a pure function of slip, N and dt (no persistent mode variable). -/
theorem C2_friction_regime (cfg : Config) (slip N dt : ℝ)
    (hmuS : 0 ≤ cfg.mu_static) (hmuK : 0 ≤ cfg.mu_kinetic)
    (hN : 0 ≤ N) (hdt : 0 ≤ dt) :
    (|(-slip) / 3| ≤ cfg.mu_static * N * dt →
      frictionImpulse cfg slip N dt = -slip / 3) ∧
    (cfg.mu_static * N * dt < |(-slip) / 3| →
      frictionImpulse cfg slip N dt = -Real.sign slip * (cfg.mu_kinetic * N * dt)) := by
  simp only [frictionImpulse]
  constructor
  · intro h
    rw [if_pos h]
  · intro h
    rw [if_neg (not_le.mpr h)]
    have hJk : 0 ≤ cfg.mu_kinetic * N * dt := mul_nonneg (mul_nonneg hmuK hN) hdt
    have hJs : 0 ≤ cfg.mu_static * N * dt := mul_nonneg (mul_nonneg hmuS hN) hdt
    rcases lt_trichotomy slip 0 with hneg | hzero | hpos
    · rw [copysign, if_pos hneg, Real.sign_of_neg hneg, abs_of_nonneg hJk]
      ring
    · exfalso
      rw [hzero] at h
      simp at h
      linarith
    · rw [copysign, if_neg (not_lt.mpr hpos.le), Real.sign_of_pos hpos,
        abs_of_nonneg hJk]
      ring

/-- Witness for C2 at the program configuration, slip = 6, N = 1, dt = 1. -/
theorem C2_friction_regime_witness :
    (0:ℝ) ≤ defaultConfig.mu_static ∧ (0:ℝ) ≤ defaultConfig.mu_kinetic ∧
    (defaultConfig.mu_static * 1 * 1 < |(-(6:ℝ)) / 3| →
      frictionImpulse defaultConfig 6 1 1 = -Real.sign 6 * (defaultConfig.mu_kinetic * 1 * 1)) := by
  refine ⟨by norm_num [defaultConfig], by norm_num [defaultConfig], ?_⟩
  exact (C2_friction_regime defaultConfig 6 1 1 (by norm_num [defaultConfig])
    (by norm_num [defaultConfig]) (by norm_num) (by norm_num)).2

/-- Claim C5: the rim bounce reflects and attenuates the normal velocity to
-v_n * wallRestitution exactly when v_n > 0 and leaves it unchanged when
v_n <= 0; with restitution in [0,1] it never increases the magnitude of the
normal component (no energy injection). -/
theorem C5_bounce_no_energy (cfg : Config) (vn : ℝ)
    (h0 : 0 ≤ cfg.wall_restitution) (h1 : cfg.wall_restitution ≤ 1) :
    (0 < vn → bounce cfg vn = -vn * cfg.wall_restitution) ∧
    (vn ≤ 0 → bounce cfg vn = vn) ∧
    |bounce cfg vn| ≤ |vn| := by
  unfold bounce
  refine ⟨fun h => if_pos h, fun h => if_neg (not_lt.mpr h), ?_⟩
  split_ifs with h
  · rw [show -vn * cfg.wall_restitution = -(vn * cfg.wall_restitution) by ring,
      abs_neg, abs_mul, abs_of_nonneg h0]
    exact mul_le_of_le_one_right (abs_nonneg _) h1
  · exact le_refl _

/-- Witness for C5 at the program configuration and v_n = 1. -/
theorem C5_bounce_no_energy_witness :
    (0:ℝ) ≤ defaultConfig.wall_restitution ∧ defaultConfig.wall_restitution ≤ 1 ∧
    |bounce defaultConfig 1| ≤ |(1:ℝ)| := by
  refine ⟨by norm_num [defaultConfig], by norm_num [defaultConfig], ?_⟩
  exact (C5_bounce_no_energy defaultConfig 1 (by norm_num [defaultConfig])
    (by norm_num [defaultConfig])).2.2

noncomputable section

/-- A state whose ball sits a distance of 1/10^7 from the wheel center:
closer than the 1e-6 guard but not exactly centered. -/
def exC4 : State where
  cfg := defaultConfig
  width := 820
  height := 820
  center_x := 0
  center_y := 0
  wheel_radius_px := 345
  wheel_angle := 0
  wheel_omega := 0
  ball := ⟨1/10000000, 0, 0, 0⟩
  ball_angle := 0
  ball_omega := 0

/-- A state whose ball sits outside the rim (distance 50 from the center,
allowed radial travel 40 - 10 = 30). -/
def exC3 : State where
  cfg := defaultConfig
  width := 820
  height := 820
  center_x := 0
  center_y := 0
  wheel_radius_px := 40
  wheel_angle := 0
  wheel_omega := 0
  ball := ⟨50, 0, 0, 0⟩
  ball_angle := 0
  ball_omega := 0

end

/-- Counterexample to claim C4 as stated: the guarded distance the code
computes (Python dist = hypot or 1e-6) differs from max(length, 1e-6) when
the raw length is 1/10^7, i.e. nonzero but below the floor. -/
theorem C4_guard_counterexample :
    distOf exC4 0 ≠ max (hypot (dxOf exC4 0) (dyOf exC4 0)) (1/1000000) := by
  have hx : dxOf exC4 0 = 1/10000000 := by
    simp [dxOf, x1, exC4]
  have hy : dyOf exC4 0 = 0 := by
    simp [dyOf, y1, exC4]
  have hh : hypot (dxOf exC4 0) (dyOf exC4 0) = 1/10000000 := by
    rw [hx, hy]
    unfold hypot
    rw [show (1/10000000:ℝ) * (1/10000000) + 0 * 0 = (1/10000000)^2 by ring,
      Real.sqrt_sq (by norm_num)]
  unfold distOf
  unfold distGuard
  rw [hh, if_neg (by norm_num), max_eq_right (by norm_num)]
  norm_num

/-- Claim C4 (amended): the distance used to form the unit normal is the
raw length when that length is nonzero and 1e-6 when it is zero (Python
`or` semantics, not a max); in all cases it is strictly positive, so the
unit-normal division never divides by zero, including when the ball is
exactly at the wheel center. -/
theorem C4_dist_guard_positive (s : State) (dt : ℝ) :
    0 < distOf s dt ∧
    distOf s dt = (if hypot (dxOf s dt) (dyOf s dt) = 0 then 1/1000000
      else hypot (dxOf s dt) (dyOf s dt)) :=
  ⟨distOf_pos s dt, rfl⟩

/-- Counterexample to claim C3 as stated: on a state whose ball lies
outside the rim, update(0) moves the ball (the positional correction fires
even at dt = 0), so update(0) is not the identity on every state. -/
theorem C3_update_zero_counterexample :
    (update exC3 0).ball.x = 30 ∧ exC3.ball.x = 50 ∧
    (update exC3 0).ball.x ≠ exC3.ball.x := by
  have hx : dxOf exC3 0 = 50 := by
    simp [dxOf, x1, exC3]
  have hy : dyOf exC3 0 = 0 := by
    simp [dyOf, y1, exC3]
  have hh : hypot (dxOf exC3 0) (dyOf exC3 0) = 50 := by
    rw [hx, hy]
    unfold hypot
    rw [show (50:ℝ) * 50 + 0 * 0 = 50^2 by ring, Real.sqrt_sq (by norm_num)]
  have hdist : distOf exC3 0 = 50 := by
    unfold distOf distGuard
    rw [hh, if_neg (by norm_num)]
  have hallow : allowedOf exC3 = 30 := by
    norm_num [allowedOf, exC3, defaultConfig]
  have hcon : allowedOf exC3 < distOf exC3 0 := by
    rw [hdist, hallow]; norm_num
  have hx1 : x1 exC3 0 = 50 := by
    simp [x1, exC3]
  have hnx : nxOf exC3 0 = 1 := by
    unfold nxOf
    rw [hx, hdist]; norm_num
  have hpen : penOf exC3 0 = 20 := by
    unfold penOf
    rw [hdist, hallow]; norm_num
  have hupd : (update exC3 0).ball.x = 30 := by
    unfold update
    rw [if_pos hcon]
    show x1 exC3 0 - nxOf exC3 0 * penOf exC3 0 = 30
    rw [hx1, hnx, hpen]; norm_num
  refine ⟨hupd, by norm_num [exC3], ?_⟩
  rw [hupd, show exC3.ball.x = 50 by norm_num [exC3]]
  norm_num

/-- Claim C3 (amended): on every state whose guarded rim distance is at
most the allowed radius (in particular every state inside the rim, which
includes every reachable state), update(0) leaves every state component
numerically unchanged. -/
theorem C3_update_zero_identity (s : State) (h : distOf s 0 ≤ allowedOf s) :
    update s 0 = s := by
  unfold update
  rw [if_neg (not_lt.mpr h)]
  have hairK : airK s.cfg 0 = 1 := by unfold airK; norm_num
  have hvx : vx2 s 0 = s.ball.vx := by unfold vx2; rw [hairK]; ring
  have hvy : vy2 s 0 = s.ball.vy := by unfold vy2; rw [hairK]; ring
  have hx : x1 s 0 = s.ball.x := by unfold x1; ring
  have hy : y1 s 0 = s.ball.y := by unfold y1; ring
  have homega : wheelOmega1 s 0 = s.wheel_omega := by
    unfold wheelOmega1 omegaK; norm_num
  have hangle : wheelAngle1 s 0 = s.wheel_angle := by
    unfold wheelAngle1; rw [homega]; ring
  have hbo : ballOmega1 s 0 = s.ball_omega := by
    unfold ballOmega1 spinK; norm_num
  rw [hvx, hvy, hx, hy, homega, hangle, hbo, mul_zero, add_zero]

/-- Witness for the amended C3 at a concrete in-rim state. -/
theorem C3_update_zero_identity_witness :
    distOf exampleState 0 ≤ allowedOf exampleState ∧
    update exampleState 0 = exampleState := by
  have hx : dxOf exampleState 0 = 0 := by
    simp [dxOf, x1, exampleState]
  have hy : dyOf exampleState 0 = 0 := by
    simp [dyOf, y1, exampleState]
  have h : distOf exampleState 0 ≤ allowedOf exampleState := by
    unfold distOf distGuard
    rw [hx, hy, show hypot 0 0 = 0 by unfold hypot; simp, if_pos rfl]
    norm_num [allowedOf, exampleState, defaultConfig]
  exact ⟨h, C3_update_zero_identity exampleState h⟩

/-- Claim C6: after placing the ball near the rim at any angle, its
distance from the wheel center is exactly innerRadius - ballRadius - 1, its
velocity is perpendicular to the radial direction, and the speed equals
boostSpeed * pixelsPerMeter (given the nonnegativity of that radius and
speed, both true of the program configuration). -/
theorem C6_placement (s : State) (angle : ℝ)
    (hr : 0 ≤ s.wheel_radius_px - s.cfg.ball_radius_px - 1)
    (hb : 0 ≤ s.cfg.ball_boost_speed_m_s * s.cfg.pixels_per_meter) :
    distTo (place_ball_near_rim s angle) =
      s.wheel_radius_px - s.cfg.ball_radius_px - 1 ∧
    ((place_ball_near_rim s angle).ball.x - (place_ball_near_rim s angle).center_x) *
        (place_ball_near_rim s angle).ball.vx +
      ((place_ball_near_rim s angle).ball.y - (place_ball_near_rim s angle).center_y) *
        (place_ball_near_rim s angle).ball.vy = 0 ∧
    hypot (place_ball_near_rim s angle).ball.vx (place_ball_near_rim s angle).ball.vy =
      s.cfg.ball_boost_speed_m_s * s.cfg.pixels_per_meter := by
  simp only [place_ball_near_rim, distTo]
  refine ⟨?_, by ring, ?_⟩
  · unfold hypot
    rw [show (s.center_x + Real.cos angle * (s.wheel_radius_px - s.cfg.ball_radius_px - 1) -
        s.center_x) * (s.center_x + Real.cos angle * (s.wheel_radius_px -
        s.cfg.ball_radius_px - 1) - s.center_x) +
        (s.center_y + Real.sin angle * (s.wheel_radius_px - s.cfg.ball_radius_px - 1) -
        s.center_y) * (s.center_y + Real.sin angle * (s.wheel_radius_px -
        s.cfg.ball_radius_px - 1) - s.center_y) =
        (s.wheel_radius_px - s.cfg.ball_radius_px - 1)^2 *
        ((Real.cos angle)^2 + (Real.sin angle)^2) by ring,
      Real.cos_sq_add_sin_sq, mul_one, Real.sqrt_sq hr]
  · unfold hypot
    rw [show -Real.sin angle * (s.cfg.ball_boost_speed_m_s * s.cfg.pixels_per_meter) *
        (-Real.sin angle * (s.cfg.ball_boost_speed_m_s * s.cfg.pixels_per_meter)) +
        Real.cos angle * (s.cfg.ball_boost_speed_m_s * s.cfg.pixels_per_meter) *
        (Real.cos angle * (s.cfg.ball_boost_speed_m_s * s.cfg.pixels_per_meter)) =
        (s.cfg.ball_boost_speed_m_s * s.cfg.pixels_per_meter)^2 *
        ((Real.cos angle)^2 + (Real.sin angle)^2) by ring,
      Real.cos_sq_add_sin_sq, mul_one, Real.sqrt_sq hb]

/-- Witness for C6 at a concrete state and placement angle 0. -/
theorem C6_placement_witness :
    (0:ℝ) ≤ exampleState.wheel_radius_px - exampleState.cfg.ball_radius_px - 1 ∧
    distTo (place_ball_near_rim exampleState 0) =
      exampleState.wheel_radius_px - exampleState.cfg.ball_radius_px - 1 := by
  refine ⟨by norm_num [exampleState, defaultConfig], ?_⟩
  exact (C6_placement exampleState 0 (by norm_num [exampleState, defaultConfig])
    (by norm_num [exampleState, defaultConfig])).1

lemma hypot_add_le (x y c : ℝ) (hc : 0 ≤ c) : hypot x (y + c) ≤ hypot x y + c := by
  unfold hypot
  have hA : 0 ≤ Real.sqrt (x * x + y * y) := Real.sqrt_nonneg _
  have hyA : y ≤ Real.sqrt (x * x + y * y) := by
    calc y ≤ |y| := le_abs_self y
    _ = Real.sqrt (y * y) := (Real.sqrt_mul_self_eq_abs y).symm
    _ ≤ Real.sqrt (x * x + y * y) :=
        Real.sqrt_le_sqrt (by nlinarith [mul_self_nonneg x])
  have hsq : (Real.sqrt (x * x + y * y))^2 = x * x + y * y :=
    Real.sq_sqrt (by nlinarith [mul_self_nonneg x, mul_self_nonneg y])
  have key : x * x + (y + c) * (y + c) ≤ (Real.sqrt (x * x + y * y) + c)^2 := by
    nlinarith [mul_nonneg (sub_nonneg.mpr hyA) hc]
  calc Real.sqrt (x * x + (y + c) * (y + c)) ≤
      Real.sqrt ((Real.sqrt (x * x + y * y) + c)^2) := Real.sqrt_le_sqrt key
  _ = Real.sqrt (x * x + y * y) + c := Real.sqrt_sq (by linarith)

/-- Claim C9: when the contact branch is not taken, the post-update speed
is at most the pre-step speed plus gravity's contribution; the drag factor
lies in [0,1] and never amplifies speed. -/
theorem C9_no_energy_injection (s : State) (dt : ℝ) (hdt : 0 ≤ dt)
    (hdrag : 0 ≤ s.cfg.air_drag_per_second) (hg : 0 ≤ gPix s.cfg)
    (hnc : ¬ contact s dt) :
    hypot (update s dt).ball.vx (update s dt).ball.vy ≤
      hypot s.ball.vx s.ball.vy + gPix s.cfg * dt := by
  unfold contact at hnc
  have hupd : (update s dt).ball = ⟨x1 s dt, y1 s dt, vx2 s dt, vy2 s dt⟩ := by
    unfold update
    rw [if_neg hnc]
  rw [hupd]
  show hypot (vx2 s dt) (vy2 s dt) ≤ hypot s.ball.vx s.ball.vy + gPix s.cfg * dt
  have hk0 : (0:ℝ) ≤ airK s.cfg dt := le_max_left 0 _
  have hk1 : airK s.cfg dt ≤ 1 := by
    unfold airK
    apply max_le (by norm_num)
    nlinarith [mul_nonneg hdrag hdt]
  unfold vx2 vy2
  rw [mul_comm s.ball.vx (airK s.cfg dt),
    mul_comm (s.ball.vy + gPix s.cfg * dt) (airK s.cfg dt), hypot_mul,
    abs_of_nonneg hk0]
  calc airK s.cfg dt * hypot s.ball.vx (s.ball.vy + gPix s.cfg * dt) ≤
      1 * hypot s.ball.vx (s.ball.vy + gPix s.cfg * dt) :=
        mul_le_mul_of_nonneg_right hk1 (hypot_nonneg _ _)
  _ = hypot s.ball.vx (s.ball.vy + gPix s.cfg * dt) := one_mul _
  _ ≤ hypot s.ball.vx s.ball.vy + gPix s.cfg * dt :=
        hypot_add_le _ _ _ (mul_nonneg hg hdt)

/-- Witness for C9 at a concrete non-contact state and dt = 1/100. -/
theorem C9_no_energy_injection_witness :
    ¬ contact exampleState (1/100) ∧
    hypot (update exampleState (1/100)).ball.vx (update exampleState (1/100)).ball.vy ≤
      hypot exampleState.ball.vx exampleState.ball.vy +
        gPix exampleState.cfg * (1/100) := by
  have hdx : dxOf exampleState (1/100) = 0 := by
    simp [dxOf, x1, vx2, exampleState]
  have hk : airK defaultConfig (1/100) = 999/1000 := by
    unfold airK defaultConfig
    rw [show (1:ℝ) - 1/10 * (1/100) = 999/1000 by norm_num,
      max_eq_right (by norm_num : (0:ℝ) ≤ 999/1000)]
  have hdy : dyOf exampleState (1/100) = 999/10000 := by
    unfold dyOf y1 vy2 gPix
    rw [show exampleState.cfg = defaultConfig from rfl, hk]
    norm_num [exampleState, defaultConfig]
  have hh : hypot (dxOf exampleState (1/100)) (dyOf exampleState (1/100)) =
      999/10000 := by
    rw [hdx, hdy]
    unfold hypot
    rw [show (0:ℝ) * 0 + 999/10000 * (999/10000) = (999/10000)^2 by ring,
      Real.sqrt_sq (by norm_num)]
  have hnc : ¬ contact exampleState (1/100) := by
    unfold contact
    unfold distOf distGuard
    rw [hh, if_neg (by norm_num)]
    norm_num [allowedOf, exampleState, defaultConfig]
  exact ⟨hnc, C9_no_energy_injection exampleState (1/100) (by norm_num)
    (by norm_num [exampleState, defaultConfig])
    (by norm_num [gPix, exampleState, defaultConfig]) hnc⟩

lemma hypot_dx_dy_le_distOf (s : State) (dt : ℝ) :
    hypot (dxOf s dt) (dyOf s dt) ≤ distOf s dt := by
  unfold distOf distGuard
  split_ifs with h0
  · rw [h0]; norm_num
  · exact le_refl _

lemma step_containment (s : State) (dt : ℝ) (hA : 0 ≤ allowedOf s) :
    distTo (update s dt) ≤ allowedOf s := by
  unfold update
  split_ifs with hc
  · by_cases h0 : hypot (dxOf s dt) (dyOf s dt) = 0
    · have hdx : dxOf s dt = 0 := (hypot_eq_zero_iff.mp h0).1
      have hdy : dyOf s dt = 0 := (hypot_eq_zero_iff.mp h0).2
      have hnx : nxOf s dt = 0 := by unfold nxOf; rw [hdx]; simp
      have hny : nyOf s dt = 0 := by unfold nyOf; rw [hdy]; simp
      unfold distTo
      show hypot (x1 s dt - nxOf s dt * penOf s dt - s.center_x)
        (y1 s dt - nyOf s dt * penOf s dt - s.center_y) ≤ allowedOf s
      rw [hnx, hny, zero_mul, sub_zero, sub_zero,
        show x1 s dt - s.center_x = dxOf s dt from rfl,
        show y1 s dt - s.center_y = dyOf s dt from rfl, hdx, hdy,
        show hypot 0 0 = 0 by unfold hypot; simp]
      exact hA
    · have hpos : 0 < hypot (dxOf s dt) (dyOf s dt) :=
        lt_of_le_of_ne (hypot_nonneg _ _) (Ne.symm h0)
      have hdist : distOf s dt = hypot (dxOf s dt) (dyOf s dt) := by
        unfold distOf distGuard
        rw [if_neg h0]
      have hdx' : x1 s dt - nxOf s dt * penOf s dt - s.center_x =
          (allowedOf s / hypot (dxOf s dt) (dyOf s dt)) * dxOf s dt := by
        rw [show x1 s dt - nxOf s dt * penOf s dt - s.center_x =
          (x1 s dt - s.center_x) - nxOf s dt * penOf s dt by ring,
          show x1 s dt - s.center_x = dxOf s dt from rfl]
        unfold nxOf penOf
        rw [hdist]
        field_simp
        ring
      have hdy' : y1 s dt - nyOf s dt * penOf s dt - s.center_y =
          (allowedOf s / hypot (dxOf s dt) (dyOf s dt)) * dyOf s dt := by
        rw [show y1 s dt - nyOf s dt * penOf s dt - s.center_y =
          (y1 s dt - s.center_y) - nyOf s dt * penOf s dt by ring,
          show y1 s dt - s.center_y = dyOf s dt from rfl]
        unfold nyOf penOf
        rw [hdist]
        field_simp
        ring
      unfold distTo
      show hypot (x1 s dt - nxOf s dt * penOf s dt - s.center_x)
        (y1 s dt - nyOf s dt * penOf s dt - s.center_y) ≤ allowedOf s
      rw [hdx', hdy', hypot_mul,
        abs_of_nonneg (div_nonneg hA hpos.le), div_mul_cancel₀ _ h0]
  · have hle : distOf s dt ≤ allowedOf s := not_lt.mp hc
    unfold distTo
    show hypot (x1 s dt - s.center_x) (y1 s dt - s.center_y) ≤ allowedOf s
    calc hypot (x1 s dt - s.center_x) (y1 s dt - s.center_y) =
        hypot (dxOf s dt) (dyOf s dt) := rfl
    _ ≤ distOf s dt := hypot_dx_dy_le_distOf s dt
    _ ≤ allowedOf s := hle

lemma containment_aux : ∀ (dts : List ℝ) (s : State), dts ≠ [] →
    0 ≤ allowedOf s → distTo (dts.foldl update s) ≤ allowedOf s := by
  intro dts
  induction dts with
  | nil => intro s h _; exact absurd rfl h
  | cons d rest ih =>
    intro s _ hA
    rw [List.foldl_cons]
    rcases eq_or_ne rest [] with hr | hr
    · subst hr
      rw [List.foldl_nil]
      exact step_containment s d hA
    · have hA' : 0 ≤ allowedOf (update s d) := by
        rw [update_allowedOf]; exact hA
      have h := ih (update s d) hr hA'
      rw [update_allowedOf] at h
      exact h

/-- Claim C1: along every nonempty sequence of update calls with dt in
[0, 0.032], the ball's distance from the wheel center ends at most
innerRadius - ballRadius (hence at most innerRadius - ballRadius + eps for
every nonnegative tolerance); since every prefix is itself such a sequence,
the bound holds after each call. -/
theorem C1_containment (s : State) (dts : List ℝ) (hA : 0 ≤ allowedOf s)
    (hne : dts ≠ []) (hdts : ∀ d ∈ dts, 0 ≤ d ∧ d ≤ 32/1000) :
    distTo (dts.foldl update s) ≤ allowedOf s :=
  containment_aux dts s hne hA

/-- Witness for C1 at a concrete state and the one-step sequence dt = 1/100. -/
theorem C1_containment_witness :
    (0:ℝ) ≤ allowedOf exampleState ∧
    distTo (List.foldl update exampleState [1/100]) ≤ allowedOf exampleState := by
  have hA : (0:ℝ) ≤ allowedOf exampleState := by
    norm_num [allowedOf, exampleState, defaultConfig]
  exact ⟨hA, C1_containment exampleState [1/100] hA (by simp)
    (by intro d hd; simp at hd; subst hd; norm_num)⟩

end SpinWheel
